import Mathlib

/-!
Verification of the post-quantum hybrid key-exchange negotiation core of s2n-tls,
as exercised by the TLS 1.3 PQ handshake test driver and the KEM-preferences test.

The two predictive selection functions and the handshake test vectors are embedded
directly from the C source. Components whose definitions lie outside the excerpted
sources (the availability probe, the length-prefix policy, the handshake driver
proper, the key schedule) are modelled from the specification and pinned against
the assertions the excerpted tests make about them.
-/

set_option maxRecDepth 4000

namespace S2N

/-- An elliptic-curve descriptor: the s2n_ecc_named_curve struct restricted to the
fields the negotiation core reads (IANA id and public name). -/
structure s2n_ecc_named_curve where
  iana_id : Nat
  name : String
deriving DecidableEq, Repr

/-- The KEM algorithm bound into a hybrid group. -/
inductive KemAlg where
  | kyber512r3
  | kyber768r3
  | kyber1024r3
  | mlkem768
  | mlkem1024
deriving DecidableEq, Repr

/-- Returns true when the KEM is an ML-KEM variant. -/
def KemAlg.isMlKem : KemAlg → Bool
  | .mlkem768 => true
  | .mlkem1024 => true
  | _ => false

/-- A hybrid KEM group: the s2n_kem_group struct restricted to the fields the
negotiation core reads (IANA id, public name, classical curve, KEM). -/
structure s2n_kem_group where
  iana_id : Nat
  name : String
  curve : s2n_ecc_named_curve
  kem : KemAlg
deriving DecidableEq, Repr

/-- KEM preferences: ordered list of TLS 1.3 KEM groups plus the hybrid draft
revision, as in the s2n_kem_preferences struct (the list length stands for
tls13_kem_group_count). -/
structure s2n_kem_preferences where
  tls13_kem_groups : List s2n_kem_group
  tls13_pq_hybrid_draft_revision : Nat
deriving DecidableEq, Repr

/-- ECC preferences: ordered curve list, as in the s2n_ecc_preferences struct
(the list length stands for the count field). -/
structure s2n_ecc_preferences where
  ecc_curves : List s2n_ecc_named_curve
deriving DecidableEq, Repr

/-- A security policy restricted to the fields the negotiation core reads. -/
structure s2n_security_policy where
  kem_preferences : s2n_kem_preferences
  ecc_preferences : s2n_ecc_preferences
deriving DecidableEq, Repr

/-- Capability probes of the linked crypto provider (spec section 6): the three
probes s2n_libcrypto_supports_evp_kem, s2n_is_evp_apis_supported (x25519) and
s2n_libcrypto_supports_mlkem. -/
structure CryptoProbe where
  supports_evp_kem : Bool
  supports_x25519 : Bool
  supports_mlkem : Bool
deriving DecidableEq, Repr

/-! ## Curve and KEM group registry

IANA identifiers as in the s2n TLS parameter tables. Only their distinctness and
the curve/KEM structure matter to the claims. -/

def s2n_ecc_curve_secp256r1 : s2n_ecc_named_curve := { iana_id := 23, name := "secp256r1" }

def s2n_ecc_curve_secp384r1 : s2n_ecc_named_curve := { iana_id := 24, name := "secp384r1" }

def s2n_ecc_curve_secp521r1 : s2n_ecc_named_curve := { iana_id := 25, name := "secp521r1" }

def s2n_ecc_curve_x25519 : s2n_ecc_named_curve := { iana_id := 29, name := "x25519" }

def s2n_x25519_kyber_512_r3 : s2n_kem_group :=
  { iana_id := 0x2F39, name := "x25519_kyber-512-r3", curve := s2n_ecc_curve_x25519, kem := .kyber512r3 }

def s2n_secp256r1_kyber_512_r3 : s2n_kem_group :=
  { iana_id := 0x2F3A, name := "secp256r1_kyber-512-r3", curve := s2n_ecc_curve_secp256r1, kem := .kyber512r3 }

def s2n_secp256r1_kyber_768_r3 : s2n_kem_group :=
  { iana_id := 0x639A, name := "SecP256r1Kyber768Draft00", curve := s2n_ecc_curve_secp256r1, kem := .kyber768r3 }

def s2n_secp384r1_kyber_768_r3 : s2n_kem_group :=
  { iana_id := 0x2F3C, name := "secp384r1_kyber-768-r3", curve := s2n_ecc_curve_secp384r1, kem := .kyber768r3 }

def s2n_secp521r1_kyber_1024_r3 : s2n_kem_group :=
  { iana_id := 0x2F3D, name := "secp521r1_kyber-1024-r3", curve := s2n_ecc_curve_secp521r1, kem := .kyber1024r3 }

def s2n_x25519_kyber_768_r3 : s2n_kem_group :=
  { iana_id := 0x6399, name := "X25519Kyber768Draft00", curve := s2n_ecc_curve_x25519, kem := .kyber768r3 }

def s2n_x25519_mlkem_768 : s2n_kem_group :=
  { iana_id := 0x11EC, name := "X25519MLKEM768", curve := s2n_ecc_curve_x25519, kem := .mlkem768 }

def s2n_secp256r1_mlkem_768 : s2n_kem_group :=
  { iana_id := 0x11EB, name := "SecP256r1MLKEM768", curve := s2n_ecc_curve_secp256r1, kem := .mlkem768 }

def s2n_secp384r1_mlkem_1024 : s2n_kem_group :=
  { iana_id := 0x11ED, name := "SecP384r1MLKEM1024", curve := s2n_ecc_curve_secp384r1, kem := .mlkem1024 }

/-- Every KEM group the build knows about (ALL_SUPPORTED_KEM_GROUPS). -/
def ALL_SUPPORTED_KEM_GROUPS : List s2n_kem_group :=
  [s2n_secp256r1_mlkem_768, s2n_x25519_mlkem_768, s2n_secp384r1_mlkem_1024,
   s2n_secp256r1_kyber_768_r3, s2n_x25519_kyber_768_r3, s2n_secp384r1_kyber_768_r3,
   s2n_secp521r1_kyber_1024_r3, s2n_x25519_kyber_512_r3, s2n_secp256r1_kyber_512_r3]

/-- Modelled from the spec: the definition of s2n_kem_group_is_available is outside
the excerpted sources (only the test at src/tls/s2n_connection_serialize.h lines
85-118 is visible). Spec section 4.1: available iff the provider exposes a generic
KEM interface, and additionally x25519 for x25519-based groups, and additionally
ML-KEM for ML-KEM groups. -/
def s2n_kem_group_is_available (p : CryptoProbe) (g : s2n_kem_group) : Bool :=
  p.supports_evp_kem
    && (!(g.curve == s2n_ecc_curve_x25519) || p.supports_x25519)
    && (!g.kem.isMlKem || p.supports_mlkem)

/-! ## Predicted negotiation functions, embedded from src/unnamed/part_001 -/

/-- First loop of s2n_get_predicted_negotiated_kem_group (part_001 lines 40-48):
scan the server groups looking for the client's default, keeping the source's
redundant second availability check on the client default. -/
def kemFastPathScan (p : CryptoProbe) (client_default : s2n_kem_group) :
    List s2n_kem_group → Option s2n_kem_group
  | [] => none
  | server_group :: rest =>
    if s2n_kem_group_is_available p client_default && s2n_kem_group_is_available p server_group
        && (client_default.iana_id == server_group.iana_id)
        && s2n_kem_group_is_available p client_default then
      some client_default
    else
      kemFastPathScan p client_default rest

/-- Inner loop of the second scan (part_001 lines 56-65): for a fixed server group,
scan the client tail (indices 1 and up) for an available match. -/
def kemClientTailScan (p : CryptoProbe) (server_group : s2n_kem_group) :
    List s2n_kem_group → Option s2n_kem_group
  | [] => none
  | client_group :: rest =>
    if s2n_kem_group_is_available p client_group && s2n_kem_group_is_available p server_group
        && (client_group.iana_id == server_group.iana_id)
        && s2n_kem_group_is_available p client_group then
      some client_group
    else
      kemClientTailScan p server_group rest

/-- Outer loop of the second scan (part_001 lines 52-66): server groups in server
preference order, client tail inside. -/
def kemTwoRttScan (p : CryptoProbe) (client_tail : List s2n_kem_group) :
    List s2n_kem_group → Option s2n_kem_group
  | [] => none
  | server_group :: rest =>
    match kemClientTailScan p server_group client_tail with
    | some g => some g
    | none => kemTwoRttScan p client_tail rest

/-- Embedded from s2n_get_predicted_negotiated_kem_group (part_001 lines 28-69).
An empty client list corresponds to the PTR_ENSURE_REF guard failing, which makes
the C function return NULL. -/
def s2n_get_predicted_negotiated_kem_group (p : CryptoProbe)
    (client_prefs server_prefs : s2n_kem_preferences) : Option s2n_kem_group :=
  match client_prefs.tls13_kem_groups with
  | [] => none
  | client_default :: client_tail =>
    match kemFastPathScan p client_default server_prefs.tls13_kem_groups with
    | some g => some g
    | none => kemTwoRttScan p client_tail server_prefs.tls13_kem_groups

/-- First loop of s2n_get_predicted_negotiated_ecdhe_curve (part_001 lines 84-90). -/
def curveFastPathScan (client_default : s2n_ecc_named_curve) :
    List s2n_ecc_named_curve → Option s2n_ecc_named_curve
  | [] => none
  | server_curve :: rest =>
    if server_curve.iana_id == client_default.iana_id then
      some client_default
    else
      curveFastPathScan client_default rest

/-- Inner loop of the second curve scan (part_001 lines 98-105). -/
def curveClientTailScan (server_curve : s2n_ecc_named_curve) :
    List s2n_ecc_named_curve → Option s2n_ecc_named_curve
  | [] => none
  | client_curve :: rest =>
    if client_curve.iana_id == server_curve.iana_id then
      some client_curve
    else
      curveClientTailScan server_curve rest

/-- Outer loop of the second curve scan (part_001 lines 94-106). -/
def curveTwoRttScan (client_tail : List s2n_ecc_named_curve) :
    List s2n_ecc_named_curve → Option s2n_ecc_named_curve
  | [] => none
  | server_curve :: rest =>
    match curveClientTailScan server_curve client_tail with
    | some c => some c
    | none => curveTwoRttScan client_tail rest

/-- Embedded from s2n_get_predicted_negotiated_ecdhe_curve (part_001 lines 71-109). -/
def s2n_get_predicted_negotiated_ecdhe_curve
    (client_sec_policy server_sec_policy : s2n_security_policy) : Option s2n_ecc_named_curve :=
  match client_sec_policy.ecc_preferences.ecc_curves with
  | [] => none
  | client_default :: client_tail =>
    match curveFastPathScan client_default server_sec_policy.ecc_preferences.ecc_curves with
    | some c => some c
    | none => curveTwoRttScan client_tail server_sec_policy.ecc_preferences.ecc_curves

/-! ## The KEM-preferences availability test, transcribed from
src/tls/s2n_connection_serialize.h lines 85-118 -/

/-- Transcription of the availability assertions of the KEM-preferences test:
every EXPECT_TRUE and EXPECT_FALSE on s2n_kem_group_is_available, under the same
nested capability conditionals as the C test. -/
def kemAvailabilityTestAssertions (p : CryptoProbe) : Bool :=
  if p.supports_evp_kem then
    (s2n_kem_group_is_available p s2n_secp256r1_kyber_512_r3 == true)
      && (s2n_kem_group_is_available p s2n_secp256r1_kyber_768_r3 == true)
      && (s2n_kem_group_is_available p s2n_secp384r1_kyber_768_r3 == true)
      && (s2n_kem_group_is_available p s2n_secp521r1_kyber_1024_r3 == true)
      && (if p.supports_x25519 then
            (s2n_kem_group_is_available p s2n_x25519_kyber_512_r3 == true)
              && (s2n_kem_group_is_available p s2n_x25519_kyber_768_r3 == true)
          else
            (s2n_kem_group_is_available p s2n_x25519_kyber_512_r3 == false)
              && (s2n_kem_group_is_available p s2n_x25519_kyber_768_r3 == false))
      && (if p.supports_mlkem then
            (s2n_kem_group_is_available p s2n_secp256r1_mlkem_768 == true)
              && (s2n_kem_group_is_available p s2n_secp384r1_mlkem_1024 == true)
              && (if p.supports_x25519 then
                    s2n_kem_group_is_available p s2n_x25519_mlkem_768 == true
                  else
                    s2n_kem_group_is_available p s2n_x25519_mlkem_768 == false)
          else
            true)
  else
    (s2n_kem_group_is_available p s2n_secp256r1_kyber_512_r3 == false)
      && (s2n_kem_group_is_available p s2n_x25519_kyber_512_r3 == false)
      && (s2n_kem_group_is_available p s2n_x25519_kyber_768_r3 == false)
      && (s2n_kem_group_is_available p s2n_secp256r1_kyber_768_r3 == false)
      && (s2n_kem_group_is_available p s2n_secp384r1_kyber_768_r3 == false)
      && (s2n_kem_group_is_available p s2n_secp521r1_kyber_1024_r3 == false)
      && (s2n_kem_group_is_available p s2n_secp256r1_mlkem_768 == false)
      && (s2n_kem_group_is_available p s2n_x25519_mlkem_768 == false)
      && (s2n_kem_group_is_available p s2n_secp384r1_mlkem_1024 == false)

/-! ## Serialized connection sizes, embedded from src/tls/s2n_connection_serialize.h -/

/-- Protocol version field length in bytes. Modelled from the spec: the constant
is defined outside the excerpted sources; a TLS protocol version on the wire is
two bytes. -/
def S2N_TLS_PROTOCOL_VERSION_LEN : Nat := 2

/-- Cipher suite id length in bytes. Modelled from the spec: defined outside the
excerpted sources; a TLS cipher suite id is two bytes. -/
def S2N_TLS_CIPHER_SUITE_LEN : Nat := 2

/-- TLS record sequence number length in bytes. Modelled from the spec: defined
outside the excerpted sources; a TLS sequence number is eight bytes. -/
def S2N_TLS_SEQUENCE_NUM_LEN : Nat := 8

/-- TLS 1.2 master secret length in bytes. Modelled from the spec: defined
outside the excerpted sources. -/
def S2N_TLS_SECRET_LEN : Nat := 48

/-- Client or server random length in bytes. Modelled from the spec, which fixes
the two random values at 32 bytes each. -/
def S2N_TLS_RANDOM_DATA_LEN : Nat := 32

/-- Embedded from the S2N_SERIALIZED_CONN_FIXED_SIZE macro
(src/tls/s2n_connection_serialize.h lines 22-23). -/
def S2N_SERIALIZED_CONN_FIXED_SIZE : Nat :=
  8 + S2N_TLS_PROTOCOL_VERSION_LEN + S2N_TLS_CIPHER_SUITE_LEN
    + S2N_TLS_SEQUENCE_NUM_LEN + S2N_TLS_SEQUENCE_NUM_LEN + 2

/-- Embedded from the S2N_SERIALIZED_CONN_TLS12_SIZE macro
(src/tls/s2n_connection_serialize.h lines 24-25). -/
def S2N_SERIALIZED_CONN_TLS12_SIZE : Nat :=
  S2N_SERIALIZED_CONN_FIXED_SIZE + S2N_TLS_SECRET_LEN
    + S2N_TLS_RANDOM_DATA_LEN + S2N_TLS_RANDOM_DATA_LEN

/-! ## Test policies and draft-revision compatibility vectors, embedded from
src/unnamed/part_001 -/

/-- The kyber_test_groups array (part_001 lines 345-352). -/
def kyber_test_groups : List s2n_kem_group :=
  [s2n_x25519_kyber_512_r3, s2n_secp256r1_kyber_512_r3, s2n_secp256r1_kyber_768_r3,
   s2n_secp384r1_kyber_768_r3, s2n_secp521r1_kyber_1024_r3, s2n_x25519_kyber_768_r3]

/-- The kyber_test_prefs_draft0 preferences (part_001 lines 354-360). -/
def kyber_test_prefs_draft0 : s2n_kem_preferences :=
  { tls13_kem_groups := kyber_test_groups, tls13_pq_hybrid_draft_revision := 0 }

/-- The kyber_test_prefs_draft5 preferences (part_001 lines 370-376). -/
def kyber_test_prefs_draft5 : s2n_kem_preferences :=
  { tls13_kem_groups := kyber_test_groups, tls13_pq_hybrid_draft_revision := 5 }

/-- A pq_handshake_test_vector (part_001 lines 483-490) restricted to the fields
the embedded claims read; the policies are represented by their KEM preferences
since the other policy tables live outside the excerpted sources. -/
structure pq_handshake_test_vector where
  client_kem_prefs : s2n_kem_preferences
  server_kem_prefs : s2n_kem_preferences
  expected_kem_group : Option s2n_kem_group
  hrr_expected : Bool
  len_prefix_expected : Bool
deriving DecidableEq, Repr

/-- Embedded draft-revision compatibility vector (part_001 lines 642-649):
client on draft revision 0, server on draft revision 5, expecting the
length-prefixed wire format. -/
def draft_compat_vector_0_to_5 : pq_handshake_test_vector :=
  { client_kem_prefs := kyber_test_prefs_draft0,
    server_kem_prefs := kyber_test_prefs_draft5,
    expected_kem_group := some s2n_x25519_kyber_512_r3,
    hrr_expected := false,
    len_prefix_expected := true }

/-- Embedded draft-revision compatibility vector (part_001 lines 650-657):
client on draft revision 5, server on draft revision 0, expecting the
concatenated (not length-prefixed) wire format. -/
def draft_compat_vector_5_to_0 : pq_handshake_test_vector :=
  { client_kem_prefs := kyber_test_prefs_draft5,
    server_kem_prefs := kyber_test_prefs_draft0,
    expected_kem_group := some s2n_x25519_kyber_512_r3,
    hrr_expected := false,
    len_prefix_expected := false }

/-- Modelled from the spec and the driver assertion at part_001 line 167: the
client-side length-prefix decision (the C function named there, whose body is
outside the excerpted sources). The embedded test vectors pin its value: draft
revision 0 gives the length-prefixed format and draft revision 5 does not, so
the decision is revision below 5. -/
def clientHybridSharesLenPrefixed (prefs : s2n_kem_preferences) : Bool :=
  prefs.tls13_pq_hybrid_draft_revision < 5

/-! ## Selection-engine output, modelled from the spec -/

/-- The Selected sum type from the spec data model (section 3): exactly one of a
hybrid KEM group (carrying its wire-format flag) or a classical curve. -/
inductive Selected where
  | hybrid (group : s2n_kem_group) (len_prefixed : Bool)
  | classical (curve : s2n_ecc_named_curve)
deriving DecidableEq, Repr

/-- Modelled from the spec: the selection engine's PQ-then-classical fall-through
(section 4.3 step 3). The per-tier rules are the embedded predictive functions,
which the spec states carry the single copy of the selection rule. -/
def predictSelected (p : CryptoProbe) (client server : s2n_security_policy) : Option Selected :=
  match s2n_get_predicted_negotiated_kem_group p client.kem_preferences server.kem_preferences with
  | some g => some (.hybrid g (clientHybridSharesLenPrefixed client.kem_preferences))
  | none => (s2n_get_predicted_negotiated_ecdhe_curve client server).map Selected.classical

/-- Modelled from the spec: the requires_hrr output of the selection engine for
the KEM tier (sections 4.3 and 4.4): a HelloRetryRequest is required exactly when
a group was selected and the peer sent no key share for it. -/
def kemSelectionRequiresHrr (p : CryptoProbe) (shares : List Nat)
    (client_prefs server_prefs : s2n_kem_preferences) : Bool :=
  match s2n_get_predicted_negotiated_kem_group p client_prefs server_prefs with
  | some g => !(shares.contains g.iana_id)
  | none => false

/-- The second selection tier exactly as the spec words it: scan S in server
order, stop at the first server group whose iana id is matched by some client
group at index 1 or later, and select the earliest such client group. Stated
over availability-filtered lists, as in spec section 4.3. -/
def specTwoRttSelect (client_tail S : List s2n_kem_group) : Option s2n_kem_group :=
  match S.find? (fun s => client_tail.any (fun c => c.iana_id == s.iana_id)) with
  | some s => client_tail.find? (fun c => c.iana_id == s.iana_id)
  | none => none

/-- A probe for a provider with every capability, used by concrete witnesses. -/
def probeAllOn : CryptoProbe := { supports_evp_kem := true, supports_x25519 := true, supports_mlkem := true }

/-- The kyber768_test_prefs preferences (part_001 lines 386-397). -/
def kyber768_test_prefs : s2n_kem_preferences :=
  { tls13_kem_groups := [s2n_secp384r1_kyber_768_r3, s2n_secp256r1_kyber_512_r3],
    tls13_pq_hybrid_draft_revision := 5 }

/-- A server preference list that misses the client default of kyber768_test_prefs
but shares its second entry, forcing the two-round-trip scan. -/
def twoRttWitnessServerPrefs : s2n_kem_preferences :=
  { tls13_kem_groups := [s2n_secp256r1_kyber_512_r3], tls13_pq_hybrid_draft_revision := 0 }

/-- A client policy offering only secp384r1 ML-KEM 1024 and the x25519 curve. -/
def fallbackWitnessClientPolicy : s2n_security_policy :=
  { kem_preferences :=
      { tls13_kem_groups := [s2n_secp384r1_mlkem_1024], tls13_pq_hybrid_draft_revision := 5 },
    ecc_preferences := { ecc_curves := [s2n_ecc_curve_x25519] } }

/-- A server policy offering only Kyber groups and the secp256r1 curve, sharing
no KEM group and no curve with fallbackWitnessClientPolicy. -/
def fallbackWitnessServerPolicy : s2n_security_policy :=
  { kem_preferences := kyber_test_prefs_draft0,
    ecc_preferences := { ecc_curves := [s2n_ecc_curve_secp256r1] } }

/-! ## Handshake model, modelled from the spec

The handshake driver, key-share exchanger and key schedule live outside the
excerpted sources (the driver test in part_001 only exercises them), so they are
modelled from spec sections 4.3 to 4.5: symbolic abstract crypto, a monolithic
run producing both connection contexts, and a server-side state machine for the
HelloRetryRequest flow. -/

/-- Symbolic TLS 1.3 secrets. Constructor distinctness models that the HKDF
outputs derived from real key material differ from the zeroed buffer and from
each other; equality of terms models byte-for-byte equality. -/
inductive TlsSecret where
  | zeroed
  | extract (dhe : Nat) (transcript : Nat)
  | clientHs (dhe : Nat) (transcript : Nat)
  | serverHs (dhe : Nat) (transcript : Nat)
deriving DecidableEq, Repr

/-- Modelled from the spec: abstract ECDH public value of a private scalar. -/
def ecdhPubOf (priv : Nat) : Nat := priv

/-- Modelled from the spec: abstract ECDH shared secret, commutative by
construction as the real operation is. -/
def ecdhShared (priv peerPub : Nat) : Nat := priv * peerPub

/-- Modelled from the spec: abstract KEM public key of a private seed. -/
def kemPubOf (priv : Nat) : Nat := priv

/-- A symbolic KEM ciphertext: the recipient public key and the encapsulation
randomness. -/
structure KemCiphertext where
  pubkey : Nat
  enc : Nat
deriving DecidableEq, Repr

/-- Modelled from the spec: the shared secret produced by encapsulating to a
public key with given randomness. -/
def kemEncapsShared (pubkey enc : Nat) : Nat := Nat.pair pubkey enc

/-- Modelled from the spec: KEM encapsulation returns the ciphertext and the
shared secret. -/
def kemEncaps (pubkey enc : Nat) : KemCiphertext × Nat :=
  ({ pubkey := pubkey, enc := enc }, kemEncapsShared pubkey enc)

/-- Modelled from the spec: KEM decapsulation recovers the shared secret when
the ciphertext was encapsulated to this private key's public key. -/
def kemDecaps (priv : Nat) (ct : KemCiphertext) : Option Nat :=
  if ct.pubkey = kemPubOf priv then some (kemEncapsShared ct.pubkey ct.enc) else none

/-- The fresh key material of one handshake run. -/
structure HandshakeNonces where
  client_ec_priv : Nat
  server_ec_priv : Nat
  client_kem_priv : Nat
  server_kem_enc : Nat
deriving DecidableEq, Repr

/-- The observable negotiation outcome of one connection, mirroring the fields
the driver test asserts on: the server_kem_group_params.kem_group pointer, the
server_ecc_evp_params.negotiated_curve pointer, the hybrid wire-format flag, the
HELLO_RETRY_REQUEST handshake-type flag and the three derived secrets. -/
structure ConnCtx where
  kem_group : Option s2n_kem_group
  negotiated_curve : Option s2n_ecc_named_curve
  len_prefixed : Bool
  hrr : Bool
  extract_secret : TlsSecret
  client_handshake_secret : TlsSecret
  server_handshake_secret : TlsSecret
deriving DecidableEq, Repr

/-- Modelled from the spec observability API: the negotiated hybrid group's
public name, or the empty string if none. -/
def s2n_connection_get_kem_group_name (c : ConnCtx) : String :=
  match c.kem_group with
  | some g => g.name
  | none => ""

/-- Modelled from the spec observability API: the negotiated classical curve's
name, or the empty string if a hybrid group was chosen instead. -/
def s2n_connection_get_curve (c : ConnCtx) : String :=
  match c.negotiated_curve with
  | some cv => cv.name
  | none => ""

/-- The iana id of a selection outcome. -/
def selectedGroupIana : Selected → Nat
  | .hybrid g _ => g.iana_id
  | .classical c => c.iana_id

/-- The hybrid group of a selection outcome, if any. -/
def selKemGroup : Selected → Option s2n_kem_group
  | .hybrid g _ => some g
  | .classical _ => none

/-- The classical curve of a selection outcome, if any. -/
def selCurve : Selected → Option s2n_ecc_named_curve
  | .hybrid _ _ => none
  | .classical c => some c

/-- The wire-format flag of a selection outcome (false for classical). -/
def selLen : Selected → Bool
  | .hybrid _ l => l
  | .classical _ => false

/-- Modelled from the spec: the key shares the client offers in its first
ClientHello, one for its most preferred available KEM group and one for its
first curve. -/
def clientOfferedShares (p : CryptoProbe) (pol : s2n_security_policy) : List Nat :=
  (match pol.kem_preferences.tls13_kem_groups.find? (fun g => s2n_kem_group_is_available p g) with
   | some g => [g.iana_id]
   | none => [])
  ++ (match pol.ecc_preferences.ecc_curves with
      | c :: _ => [c.iana_id]
      | [] => [])

/-- Builds the context one peer ends the handshake with, from its negotiation
outcome and its own view of the key-exchange input to the key schedule. -/
def mkCtx (kg : Option s2n_kem_group) (cv : Option s2n_ecc_named_curve)
    (lenp hrr : Bool) (dhe transcript : Nat) : ConnCtx :=
  { kem_group := kg, negotiated_curve := cv, len_prefixed := lenp, hrr := hrr,
    extract_secret := .extract dhe transcript,
    client_handshake_secret := .clientHs dhe transcript,
    server_handshake_secret := .serverHs dhe transcript }

/-- Modelled from the spec: a complete TLS 1.3 PQ handshake between one client
and one server. Selection follows the engine, a HelloRetryRequest round is taken
when the client sent no share for the selected group (the client then re-sends
the requested share, so the exchange proceeds), the hybrid wire format follows
the client, and both sides derive their secrets from their own view of the key
exchange (classical secret first, PQ secret second). Returns the client and
server contexts, or none when no mutual group exists. -/
def runPqHandshake (p : CryptoProbe) (n : HandshakeNonces)
    (client server : s2n_security_policy) : Option (ConnCtx × ConnCtx) :=
  match predictSelected p client server with
  | none => none
  | some sel =>
    let shares := clientOfferedShares p client
    let hrr := !(shares.contains (selectedGroupIana sel))
    match sel with
    | .hybrid g lenp =>
      let ecPubClient := ecdhPubOf n.client_ec_priv
      let ecPubServer := ecdhPubOf n.server_ec_priv
      let enc := kemEncaps (kemPubOf n.client_kem_priv) n.server_kem_enc
      match kemDecaps n.client_kem_priv enc.1 with
      | none => none
      | some ssClient =>
        let dheClient := Nat.pair (ecdhShared n.client_ec_priv ecPubServer) ssClient
        let dheServer := Nat.pair (ecdhShared n.server_ec_priv ecPubClient) enc.2
        let transcript := Nat.pair g.iana_id (if hrr then 1 else 0)
        some (mkCtx (some g) none lenp hrr dheClient transcript,
              mkCtx (some g) none lenp hrr dheServer transcript)
    | .classical cv =>
      let dheClient := ecdhShared n.client_ec_priv (ecdhPubOf n.server_ec_priv)
      let dheServer := ecdhShared n.server_ec_priv (ecdhPubOf n.client_ec_priv)
      let transcript := Nat.pair cv.iana_id (if hrr then 1 else 0)
      some (mkCtx none (some cv) false hrr dheClient transcript,
            mkCtx none (some cv) false hrr dheServer transcript)

/-! ## Server handshake state machine, modelled from spec section 4.4 -/

/-- Server-side handshake states from the spec state diagram. SELECTING and
SELECTING2 are transient within a step; DERIVE_HS_SECRETS onward is collapsed
into handshakeDone since the claims only concern the HelloRetryRequest flow. -/
inductive HsState where
  | expectClientHello
  | sendHrr
  | expectCh2
  | sendServerHello
  | handshakeDone
  | aborted
deriving DecidableEq, Repr

/-- Server machine state: control state, the HELLO_RETRY_REQUEST bit of
handshake_type_flags, and the group indicated in a HelloRetryRequest. -/
structure ServerHsMachine where
  state : HsState
  hrrFlag : Bool
  selectedIana : Option Nat
deriving DecidableEq, Repr

/-- Events driving the server machine: a ClientHello arriving (carrying the
client's policy-derived advertisement and its key-share list), or the server
flushing its pending flight. -/
inductive HsEvent where
  | recvClientHello (client : s2n_security_policy) (shares : List Nat)
  | sendFlight
deriving DecidableEq, Repr

/-- The initial server machine. -/
def initServerMachine : ServerHsMachine :=
  { state := .expectClientHello, hrrFlag := false, selectedIana := none }

/-- Modelled from the spec: one step of the server handshake machine. The second
component is true exactly when this step issues a HelloRetryRequest. A second
ClientHello that still lacks a share for the indicated group aborts
(illegal-parameter); the machine never loops back to issue another
HelloRetryRequest. -/
def serverStep (p : CryptoProbe) (server : s2n_security_policy)
    (m : ServerHsMachine) (e : HsEvent) : ServerHsMachine × Bool :=
  match m.state, e with
  | .expectClientHello, .recvClientHello client shares =>
    (match predictSelected p client server with
     | none => ({ m with state := .aborted }, false)
     | some sel =>
       if shares.contains (selectedGroupIana sel) then
         ({ m with state := .sendServerHello, selectedIana := some (selectedGroupIana sel) }, false)
       else
         ({ m with state := .sendHrr, hrrFlag := true, selectedIana := some (selectedGroupIana sel) },
          true))
  | .sendHrr, .sendFlight => ({ m with state := .expectCh2 }, false)
  | .expectCh2, .recvClientHello _ shares =>
    (match m.selectedIana with
     | some iana =>
       if shares.contains iana then ({ m with state := .sendServerHello }, false)
       else ({ m with state := .aborted }, false)
     | none => ({ m with state := .aborted }, false))
  | .sendServerHello, .sendFlight => ({ m with state := .handshakeDone }, false)
  | _, _ => (m, false)

/-- Runs the server machine over an event list, counting issued
HelloRetryRequests. -/
def runServer (p : CryptoProbe) (server : s2n_security_policy)
    (m : ServerHsMachine) : List HsEvent → ServerHsMachine × Nat
  | [] => (m, 0)
  | e :: es =>
    let step := serverStep p server m e
    let rest := runServer p server step.1 es
    (rest.1, (if step.2 then 1 else 0) + rest.2)

/-- A self-talk policy built from the draft-5 kyber test preferences and a
two-curve list, used by concrete witnesses. -/
def selfTalkPolicy : s2n_security_policy :=
  { kem_preferences := kyber_test_prefs_draft5,
    ecc_preferences := { ecc_curves := [s2n_ecc_curve_x25519, s2n_ecc_curve_secp256r1] } }

/-- Concrete key material for the witness run. -/
def witnessNonces : HandshakeNonces :=
  { client_ec_priv := 2, server_ec_priv := 3, client_kem_priv := 5, server_kem_enc := 7 }

/-- A placeholder context used only as the getD default below. -/
def dummyCtx : ConnCtx :=
  { kem_group := none, negotiated_curve := none, len_prefixed := false, hrr := false,
    extract_secret := .zeroed, client_handshake_secret := .zeroed,
    server_handshake_secret := .zeroed }

/-- The pair of contexts produced by the witness run. -/
def witnessCtxs : ConnCtx × ConnCtx :=
  (runPqHandshake probeAllOn witnessNonces selfTalkPolicy selfTalkPolicy).getD (dummyCtx, dummyCtx)

/-- A machine that has already issued a HelloRetryRequest, used by the C7
witness. -/
def hrrWitnessMachine : ServerHsMachine :=
  { state := .sendHrr, hrrFlag := true, selectedIana := some 0x2F39 }

/-! ## Lemmas about the scan loops -/

lemma kemFastPathScan_hit (p : CryptoProbe) (cd sg : s2n_kem_group) (S : List s2n_kem_group)
    (hsg : sg ∈ S) (hcd : s2n_kem_group_is_available p cd = true)
    (hs : s2n_kem_group_is_available p sg = true) (hid : sg.iana_id = cd.iana_id) :
    kemFastPathScan p cd S = some cd := by
  induction S with
  | nil => cases hsg
  | cons hd tl ih =>
    rcases List.mem_cons.mp hsg with h | h
    · subst h
      simp [kemFastPathScan, hcd, hs, hid]
    · rw [kemFastPathScan]
      split
      · rfl
      · exact ih h

lemma kemFastPathScan_none (p : CryptoProbe) (cd : s2n_kem_group) (S : List s2n_kem_group)
    (h : ∀ sg ∈ S, ¬(s2n_kem_group_is_available p cd = true
      ∧ s2n_kem_group_is_available p sg = true ∧ cd.iana_id = sg.iana_id)) :
    kemFastPathScan p cd S = none := by
  induction S with
  | nil => rfl
  | cons hd tl ih =>
    rw [kemFastPathScan]
    split
    · rename_i hcond
      simp only [Bool.and_eq_true, beq_iff_eq] at hcond
      exact absurd ⟨hcond.1.1.1, hcond.1.1.2, hcond.1.2⟩ (h hd (List.mem_cons_self hd tl))
    · exact ih fun sg hsg => h sg (List.mem_cons_of_mem hd hsg)

lemma kemFastPathScan_sound (p : CryptoProbe) (cd g : s2n_kem_group) (S : List s2n_kem_group)
    (h : kemFastPathScan p cd S = some g) :
    g = cd ∧ s2n_kem_group_is_available p g = true
      ∧ ∃ sg ∈ S, sg.iana_id = g.iana_id := by
  induction S with
  | nil => cases h
  | cons hd tl ih =>
    rw [kemFastPathScan] at h
    split at h
    · rename_i hcond
      simp only [Bool.and_eq_true, beq_iff_eq] at hcond
      cases h
      exact ⟨rfl, hcond.1.1.1, hd, List.mem_cons_self .., hcond.1.2.symm⟩
    · obtain ⟨h1, h2, sg, hsg, hid⟩ := ih h
      exact ⟨h1, h2, sg, List.mem_cons_of_mem hd hsg, hid⟩

lemma kemClientTailScan_eq_find (p : CryptoProbe) (sg : s2n_kem_group)
    (ctail : List s2n_kem_group)
    (hA : ∀ c ∈ ctail, s2n_kem_group_is_available p c = true)
    (hs : s2n_kem_group_is_available p sg = true) :
    kemClientTailScan p sg ctail = ctail.find? (fun c => c.iana_id == sg.iana_id) := by
  induction ctail with
  | nil => rfl
  | cons hd tl ih =>
    have hhd : s2n_kem_group_is_available p hd = true := hA hd (List.mem_cons_self hd tl)
    rw [kemClientTailScan, List.find?]
    rw [hhd, hs]
    cases hid : (hd.iana_id == sg.iana_id) with
    | true => simp
    | false => simpa using ih fun c hc => hA c (List.mem_cons_of_mem hd hc)

lemma kemClientTailScan_sound (p : CryptoProbe) (sg g : s2n_kem_group)
    (ctail : List s2n_kem_group) (h : kemClientTailScan p sg ctail = some g) :
    g ∈ ctail ∧ s2n_kem_group_is_available p g = true ∧ g.iana_id = sg.iana_id := by
  induction ctail with
  | nil => cases h
  | cons hd tl ih =>
    rw [kemClientTailScan] at h
    split at h
    · rename_i hcond
      simp only [Bool.and_eq_true, beq_iff_eq] at hcond
      cases h
      exact ⟨List.mem_cons_self .., hcond.1.1.1, hcond.1.2⟩
    · obtain ⟨h1, h2, h3⟩ := ih h
      exact ⟨List.mem_cons_of_mem hd h1, h2, h3⟩

lemma kemClientTailScan_none (p : CryptoProbe) (sg : s2n_kem_group)
    (ctail : List s2n_kem_group)
    (h : ∀ c ∈ ctail, ¬(s2n_kem_group_is_available p c = true
      ∧ s2n_kem_group_is_available p sg = true ∧ c.iana_id = sg.iana_id)) :
    kemClientTailScan p sg ctail = none := by
  induction ctail with
  | nil => rfl
  | cons hd tl ih =>
    rw [kemClientTailScan]
    split
    · rename_i hcond
      simp only [Bool.and_eq_true, beq_iff_eq] at hcond
      exact absurd ⟨hcond.1.1.1, hcond.1.1.2, hcond.1.2⟩ (h hd (List.mem_cons_self hd tl))
    · exact ih fun c hc => h c (List.mem_cons_of_mem hd hc)

lemma kemTwoRttScan_eq_spec (p : CryptoProbe) (ctail S : List s2n_kem_group)
    (hA : ∀ c ∈ ctail, s2n_kem_group_is_available p c = true)
    (hS : ∀ s ∈ S, s2n_kem_group_is_available p s = true) :
    kemTwoRttScan p ctail S = specTwoRttSelect ctail S := by
  induction S with
  | nil => rfl
  | cons hd tl ih =>
    have hhd : s2n_kem_group_is_available p hd = true := hS hd (List.mem_cons_self hd tl)
    rw [kemTwoRttScan, kemClientTailScan_eq_find p hd ctail hA hhd, specTwoRttSelect, List.find?]
    cases hany : ctail.any (fun c => c.iana_id == hd.iana_id) with
    | true =>
      obtain ⟨c, hc, hcid⟩ := List.any_eq_true.mp hany
      have hsome : (ctail.find? (fun c => c.iana_id == hd.iana_id)).isSome :=
        List.find?_isSome.mpr ⟨c, hc, hcid⟩
      obtain ⟨g, hg⟩ := Option.isSome_iff_exists.mp hsome
      simp [hg]
    | false =>
      have hnone : ctail.find? (fun c => c.iana_id == hd.iana_id) = none := by
        rw [List.find?_eq_none]
        intro c hc
        have := List.any_eq_false.mp hany c hc
        simpa using this
      rw [hnone]
      rw [ih fun s hs => hS s (List.mem_cons_of_mem hd hs)]
      rfl

lemma kemTwoRttScan_sound (p : CryptoProbe) (g : s2n_kem_group)
    (ctail S : List s2n_kem_group) (h : kemTwoRttScan p ctail S = some g) :
    g ∈ ctail ∧ s2n_kem_group_is_available p g = true
      ∧ ∃ sg ∈ S, sg.iana_id = g.iana_id := by
  induction S with
  | nil => cases h
  | cons hd tl ih =>
    rw [kemTwoRttScan] at h
    split at h
    · rename_i hfound
      cases h
      obtain ⟨h1, h2, h3⟩ := kemClientTailScan_sound p hd g ctail hfound
      exact ⟨h1, h2, hd, List.mem_cons_self hd tl, h3.symm⟩
    · obtain ⟨h1, h2, sg, hsg, hid⟩ := ih h
      exact ⟨h1, h2, sg, List.mem_cons_of_mem hd hsg, hid⟩

lemma kemTwoRttScan_none (p : CryptoProbe) (ctail S : List s2n_kem_group)
    (h : ∀ s ∈ S, ∀ c ∈ ctail, ¬(s2n_kem_group_is_available p c = true
      ∧ s2n_kem_group_is_available p s = true ∧ c.iana_id = s.iana_id)) :
    kemTwoRttScan p ctail S = none := by
  induction S with
  | nil => rfl
  | cons hd tl ih =>
    rw [kemTwoRttScan]
    rw [kemClientTailScan_none p hd ctail fun c hc => h hd (List.mem_cons_self hd tl) c hc]
    exact ih fun s hs c hc => h s (List.mem_cons_of_mem hd hs) c hc

lemma curveFastPathScan_none (cd : s2n_ecc_named_curve) (S : List s2n_ecc_named_curve)
    (h : ∀ sc ∈ S, cd.iana_id ≠ sc.iana_id) :
    curveFastPathScan cd S = none := by
  induction S with
  | nil => rfl
  | cons hd tl ih =>
    rw [curveFastPathScan]
    split
    · rename_i hcond
      exact absurd (beq_iff_eq.mp hcond).symm (h hd (List.mem_cons_self hd tl))
    · exact ih fun sc hsc => h sc (List.mem_cons_of_mem hd hsc)

lemma curveClientTailScan_none (sc : s2n_ecc_named_curve) (ctail : List s2n_ecc_named_curve)
    (h : ∀ cc ∈ ctail, cc.iana_id ≠ sc.iana_id) :
    curveClientTailScan sc ctail = none := by
  induction ctail with
  | nil => rfl
  | cons hd tl ih =>
    rw [curveClientTailScan]
    split
    · rename_i hcond
      exact absurd (beq_iff_eq.mp hcond) (h hd (List.mem_cons_self hd tl))
    · exact ih fun cc hcc => h cc (List.mem_cons_of_mem hd hcc)

lemma curveTwoRttScan_none (ctail S : List s2n_ecc_named_curve)
    (h : ∀ sc ∈ S, ∀ cc ∈ ctail, cc.iana_id ≠ sc.iana_id) :
    curveTwoRttScan ctail S = none := by
  induction S with
  | nil => rfl
  | cons hd tl ih =>
    rw [curveTwoRttScan]
    rw [curveClientTailScan_none hd ctail fun cc hcc => h hd (List.mem_cons_self hd tl) cc hcc]
    exact ih fun sc hsc cc hcc => h sc (List.mem_cons_of_mem hd hsc) cc hcc

lemma curveFastPathScan_sound (cd c : s2n_ecc_named_curve) (S : List s2n_ecc_named_curve)
    (h : curveFastPathScan cd S = some c) : c = cd := by
  induction S with
  | nil => cases h
  | cons hd tl ih =>
    rw [curveFastPathScan] at h
    split at h
    · cases h; rfl
    · exact ih h

lemma curveClientTailScan_sound (sc c : s2n_ecc_named_curve) (ctail : List s2n_ecc_named_curve)
    (h : curveClientTailScan sc ctail = some c) : c ∈ ctail := by
  induction ctail with
  | nil => cases h
  | cons hd tl ih =>
    rw [curveClientTailScan] at h
    split at h
    · cases h; exact List.mem_cons_self ..
    · exact List.mem_cons_of_mem hd (ih h)

lemma curveTwoRttScan_sound (c : s2n_ecc_named_curve) (ctail S : List s2n_ecc_named_curve)
    (h : curveTwoRttScan ctail S = some c) : c ∈ ctail := by
  induction S with
  | nil => cases h
  | cons hd tl ih =>
    rw [curveTwoRttScan] at h
    split at h
    · rename_i hfound
      cases h
      exact curveClientTailScan_sound hd c ctail hfound
    · exact ih h

lemma predictedCurveMemClient (client server : s2n_security_policy) (c : s2n_ecc_named_curve)
    (h : s2n_get_predicted_negotiated_ecdhe_curve client server = some c) :
    c ∈ client.ecc_preferences.ecc_curves := by
  cases hcc : client.ecc_preferences.ecc_curves with
  | nil =>
    rw [s2n_get_predicted_negotiated_ecdhe_curve, hcc] at h
    cases h
  | cons cd ctail =>
    simp only [s2n_get_predicted_negotiated_ecdhe_curve, hcc] at h
    cases hfast : curveFastPathScan cd server.ecc_preferences.ecc_curves with
    | some c0 =>
      simp only [hfast] at h
      cases h
      rw [curveFastPathScan_sound cd c _ hfast]
      exact List.mem_cons_self ..
    | none =>
      simp only [hfast] at h
      exact List.mem_cons_of_mem cd (curveTwoRttScan_sound c ctail _ h)

lemma predictedKemGroupSoundAux
    (p : CryptoProbe) (client_prefs server_prefs : s2n_kem_preferences) (g : s2n_kem_group)
    (h : s2n_get_predicted_negotiated_kem_group p client_prefs server_prefs = some g) :
    s2n_kem_group_is_available p g = true
      ∧ g ∈ client_prefs.tls13_kem_groups
      ∧ ∃ sg ∈ server_prefs.tls13_kem_groups, sg.iana_id = g.iana_id := by
  cases hcg : client_prefs.tls13_kem_groups with
  | nil =>
    rw [s2n_get_predicted_negotiated_kem_group, hcg] at h
    cases h
  | cons cd ctail =>
    simp only [s2n_get_predicted_negotiated_kem_group, hcg] at h
    cases hfast : kemFastPathScan p cd server_prefs.tls13_kem_groups with
    | some g0 =>
      simp only [hfast] at h
      cases h
      obtain ⟨heq, havail, sg, hsg, hid⟩ := kemFastPathScan_sound p cd g _ hfast
      exact ⟨havail, by rw [heq]; exact List.mem_cons_self .., sg, hsg, hid⟩
    | none =>
      simp only [hfast] at h
      obtain ⟨hmem, havail, sg, hsg, hid⟩ := kemTwoRttScan_sound p g ctail _ h
      exact ⟨havail, List.mem_cons_of_mem _ hmem, sg, hsg, hid⟩

lemma runPqHandshake_inv (p : CryptoProbe) (n : HandshakeNonces)
    (client server : s2n_security_policy) (cc sc : ConnCtx)
    (h : runPqHandshake p n client server = some (cc, sc)) :
    ∃ sel hrr dhe t, predictSelected p client server = some sel
      ∧ cc = mkCtx (selKemGroup sel) (selCurve sel) (selLen sel) hrr dhe t
      ∧ sc = mkCtx (selKemGroup sel) (selCurve sel) (selLen sel) hrr dhe t := by
  unfold runPqHandshake at h
  cases hsel : predictSelected p client server with
  | none => rw [hsel] at h; cases h
  | some sel =>
    simp only [hsel] at h
    cases sel with
    | hybrid g lenp =>
      simp only [kemEncaps, kemDecaps, kemPubOf, kemEncapsShared] at h
      rw [if_pos trivial] at h
      simp only [Option.some.injEq, Prod.mk.injEq] at h
      obtain ⟨rfl, rfl⟩ := h
      have hcomm : ecdhShared n.server_ec_priv (ecdhPubOf n.client_ec_priv)
          = ecdhShared n.client_ec_priv (ecdhPubOf n.server_ec_priv) := by
        simp [ecdhShared, ecdhPubOf, Nat.mul_comm]
      refine ⟨.hybrid g lenp, _, _, _, rfl, rfl, ?_⟩
      simp only [hcomm]
      rfl
    | classical cv =>
      simp only [Option.some.injEq, Prod.mk.injEq] at h
      obtain ⟨rfl, rfl⟩ := h
      have hcomm : ecdhShared n.server_ec_priv (ecdhPubOf n.client_ec_priv)
          = ecdhShared n.client_ec_priv (ecdhPubOf n.server_ec_priv) := by
        simp [ecdhShared, ecdhPubOf, Nat.mul_comm]
      refine ⟨.classical cv, _, _, _, rfl, rfl, ?_⟩
      simp only [hcomm]
      rfl

lemma predictSelected_hybrid_inv (p : CryptoProbe) (client server : s2n_security_policy)
    (g : s2n_kem_group) (lenp : Bool)
    (h : predictSelected p client server = some (.hybrid g lenp)) :
    s2n_get_predicted_negotiated_kem_group p client.kem_preferences server.kem_preferences = some g
      ∧ lenp = clientHybridSharesLenPrefixed client.kem_preferences := by
  unfold predictSelected at h
  cases hk : s2n_get_predicted_negotiated_kem_group p client.kem_preferences
      server.kem_preferences with
  | some g0 =>
    simp only [hk, Option.some.injEq, Selected.hybrid.injEq] at h
    obtain ⟨rfl, rfl⟩ := h
    exact ⟨rfl, rfl⟩
  | none =>
    rw [hk] at h
    cases hcv : s2n_get_predicted_negotiated_ecdhe_curve client server with
    | none => rw [hcv] at h; cases h
    | some cv =>
      rw [hcv] at h
      simp at h

lemma predictSelected_classical_inv (p : CryptoProbe) (client server : s2n_security_policy)
    (cv : s2n_ecc_named_curve)
    (h : predictSelected p client server = some (.classical cv)) :
    s2n_get_predicted_negotiated_ecdhe_curve client server = some cv := by
  unfold predictSelected at h
  cases hk : s2n_get_predicted_negotiated_kem_group p client.kem_preferences
      server.kem_preferences with
  | some g0 =>
    rw [hk] at h
    simp at h
  | none =>
    rw [hk] at h
    cases hcv : s2n_get_predicted_negotiated_ecdhe_curve client server with
    | none => rw [hcv] at h; cases h
    | some cv0 =>
      rw [hcv] at h
      simp at h
      rw [h]

lemma serverStep_flag_mono (p : CryptoProbe) (server : s2n_security_policy)
    (m : ServerHsMachine) (e : HsEvent) (h : m.hrrFlag = true) :
    (serverStep p server m e).1.hrrFlag = true := by
  cases hs : m.state <;> cases e <;>
    simp [serverStep, hs, h] <;>
    first
      | rfl
      | (split <;> first | simp [h] | (split <;> simp [h]))

lemma serverStep_emit_state (p : CryptoProbe) (server : s2n_security_policy)
    (m : ServerHsMachine) (e : HsEvent) (h : (serverStep p server m e).2 = true) :
    (serverStep p server m e).1.state = HsState.sendHrr
      ∧ (serverStep p server m e).1.hrrFlag = true := by
  obtain ⟨st, fl, si⟩ := m
  cases st <;> cases e <;> simp only [serverStep] at h ⊢ <;> try cases h
  · rename_i client shares
    cases hps : predictSelected p client server with
    | none => rw [hps] at h; cases h
    | some sel =>
      simp only [hps] at h ⊢
      by_cases hc : shares.contains (selectedGroupIana sel) = true
      · rw [if_pos hc] at h; cases h
      · rw [if_neg hc]
        exact ⟨rfl, rfl⟩
  · rename_i client shares
    cases hsi : si with
    | none => rw [hsi] at h; cases h
    | some iana =>
      simp only [hsi] at h
      split at h <;> simp at h

lemma serverStep_no_reenter (p : CryptoProbe) (server : s2n_security_policy)
    (m : ServerHsMachine) (e : HsEvent) (h : m.state ≠ HsState.expectClientHello) :
    (serverStep p server m e).1.state ≠ HsState.expectClientHello
      ∧ (serverStep p server m e).2 = false := by
  obtain ⟨st, fl, si⟩ := m
  cases st <;> cases e <;> simp only [serverStep] <;> try simp
  · exact absurd rfl h
  · exact absurd rfl h
  · rename_i client shares
    cases si with
    | none => simp
    | some iana =>
      simp only []
      split <;> simp

lemma runServer_count_zero (p : CryptoProbe) (server : s2n_security_policy) :
    ∀ (es : List HsEvent) (m : ServerHsMachine), m.state ≠ HsState.expectClientHello →
      (runServer p server m es).2 = 0 := by
  intro es
  induction es with
  | nil => intro m _; rfl
  | cons e es ih =>
    intro m hm
    obtain ⟨hstate, hemit⟩ := serverStep_no_reenter p server m e hm
    simp [runServer, hemit, ih _ hstate]

lemma runServer_count_le_one (p : CryptoProbe) (server : s2n_security_policy) :
    ∀ (es : List HsEvent) (m : ServerHsMachine), (runServer p server m es).2 ≤ 1 := by
  intro es
  induction es with
  | nil => intro m; simp [runServer]
  | cons e es ih =>
    intro m
    cases hb : (serverStep p server m e).2 with
    | false => simpa [runServer, hb] using ih (serverStep p server m e).1
    | true =>
      obtain ⟨hstate, _⟩ := serverStep_emit_state p server m e hb
      have hrest : (runServer p server (serverStep p server m e).1 es).2 = 0 :=
        runServer_count_zero p server es _ (by rw [hstate]; intro hcon; cases hcon)
      simp [runServer, hb, hrest]

lemma runServer_flag_mono (p : CryptoProbe) (server : s2n_security_policy) :
    ∀ (es : List HsEvent) (m : ServerHsMachine), m.hrrFlag = true →
      ((runServer p server m es).1).hrrFlag = true := by
  intro es
  induction es with
  | nil => intro m hm; exact hm
  | cons e es ih =>
    intro m hm
    exact ih _ (serverStep_flag_mono p server m e hm)

/-! ## Claim theorems on the selection engine -/

/-- C2: for availability-filtered client and server KEM-group preference lists,
if the client list is non-empty, the peer sent a key share for the client's
first group, and that first group appears in the server list, then the
selection engine selects the client's first group and no HelloRetryRequest is
triggered. -/
theorem fast_path_selects_client_default
    (p : CryptoProbe) (shares : List Nat)
    (client_prefs server_prefs : s2n_kem_preferences)
    (client_default : s2n_kem_group) (client_tail : List s2n_kem_group)
    (hc : client_prefs.tls13_kem_groups = client_default :: client_tail)
    (havailC : ∀ g ∈ client_prefs.tls13_kem_groups, s2n_kem_group_is_available p g = true)
    (havailS : ∀ g ∈ server_prefs.tls13_kem_groups, s2n_kem_group_is_available p g = true)
    (hshare : shares.contains client_default.iana_id = true)
    (hmem : ∃ sg ∈ server_prefs.tls13_kem_groups, sg.iana_id = client_default.iana_id) :
    s2n_get_predicted_negotiated_kem_group p client_prefs server_prefs = some client_default
      ∧ kemSelectionRequiresHrr p shares client_prefs server_prefs = false := by
  obtain ⟨sg, hsg, hid⟩ := hmem
  have hcd : s2n_kem_group_is_available p client_default = true :=
    havailC client_default (by rw [hc]; exact List.mem_cons_self ..)
  have hpred : s2n_get_predicted_negotiated_kem_group p client_prefs server_prefs
      = some client_default := by
    simp only [s2n_get_predicted_negotiated_kem_group, hc,
      kemFastPathScan_hit p client_default sg _ hsg hcd (havailS sg hsg) hid]
  refine ⟨hpred, ?_⟩
  simp only [kemSelectionRequiresHrr, hpred, hshare, Bool.not_true]

/-- Witness for C2: the draft-0 kyber client policy against the draft-5 kyber
server policy, the client having sent a key share for its first group. -/
theorem fast_path_selects_client_default_witness :
    s2n_get_predicted_negotiated_kem_group probeAllOn kyber_test_prefs_draft0 kyber_test_prefs_draft5
        = some s2n_x25519_kyber_512_r3
      ∧ kemSelectionRequiresHrr probeAllOn [0x2F39] kyber_test_prefs_draft0 kyber_test_prefs_draft5
        = false :=
  fast_path_selects_client_default probeAllOn [0x2F39] kyber_test_prefs_draft0 kyber_test_prefs_draft5
    s2n_x25519_kyber_512_r3 _ rfl (by decide) (by decide) (by decide)
    ⟨s2n_x25519_kyber_512_r3, by decide, rfl⟩

/-- C3: when the 1-RTT fast path does not apply, the selection engine scans the
server list in server preference order and selects the first server group whose
iana id matches some client group at index 1 or later (the spec-worded
specTwoRttSelect); a HelloRetryRequest is required exactly when the peer sent no
key share for the selected group. -/
theorem two_rtt_selection_follows_server_order
    (p : CryptoProbe) (shares : List Nat)
    (client_prefs server_prefs : s2n_kem_preferences)
    (client_default : s2n_kem_group) (client_tail : List s2n_kem_group)
    (hc : client_prefs.tls13_kem_groups = client_default :: client_tail)
    (havailC : ∀ g ∈ client_prefs.tls13_kem_groups, s2n_kem_group_is_available p g = true)
    (havailS : ∀ g ∈ server_prefs.tls13_kem_groups, s2n_kem_group_is_available p g = true)
    (hnofast : ∀ sg ∈ server_prefs.tls13_kem_groups, sg.iana_id ≠ client_default.iana_id) :
    s2n_get_predicted_negotiated_kem_group p client_prefs server_prefs
        = specTwoRttSelect client_tail server_prefs.tls13_kem_groups
      ∧ kemSelectionRequiresHrr p shares client_prefs server_prefs
        = (match specTwoRttSelect client_tail server_prefs.tls13_kem_groups with
           | some g => !(shares.contains g.iana_id)
           | none => false) := by
  have hfast : kemFastPathScan p client_default server_prefs.tls13_kem_groups = none :=
    kemFastPathScan_none p client_default _
      (fun sg hsg hcontra => hnofast sg hsg hcontra.2.2.symm)
  have havailtail : ∀ c ∈ client_tail, s2n_kem_group_is_available p c = true :=
    fun c hcmem => havailC c (by rw [hc]; exact List.mem_cons_of_mem _ hcmem)
  have hpred : s2n_get_predicted_negotiated_kem_group p client_prefs server_prefs
      = specTwoRttSelect client_tail server_prefs.tls13_kem_groups := by
    simp only [s2n_get_predicted_negotiated_kem_group, hc, hfast]
    exact kemTwoRttScan_eq_spec p client_tail _ havailtail havailS
  exact ⟨hpred, by simp only [kemSelectionRequiresHrr, hpred]⟩

/-- Witness for C3: a client preferring secp384r1 Kyber768 against a server that
only supports the client's second choice; no key share was sent for it, so a
HelloRetryRequest is required. -/
theorem two_rtt_selection_follows_server_order_witness :
    s2n_get_predicted_negotiated_kem_group probeAllOn kyber768_test_prefs twoRttWitnessServerPrefs
        = some s2n_secp256r1_kyber_512_r3
      ∧ kemSelectionRequiresHrr probeAllOn [] kyber768_test_prefs twoRttWitnessServerPrefs = true := by
  have h := two_rtt_selection_follows_server_order probeAllOn [] kyber768_test_prefs
    twoRttWitnessServerPrefs s2n_secp384r1_kyber_768_r3 _ rfl (by decide) (by decide) (by decide)
  exact ⟨h.1.trans (by decide), h.2.trans (by decide)⟩

/-- C6: if the KEM preference lists have no available intersection, the KEM tier
selects nothing and selection falls through to classical ECDHE selection over
the curve lists; if the curve lists also have no intersection, no group is
selected at all (the no-mutual-group handshake failure). -/
theorem no_mutual_group_fallthrough
    (p : CryptoProbe) (client server : s2n_security_policy)
    (hkem : ∀ cg ∈ client.kem_preferences.tls13_kem_groups,
        ∀ sg ∈ server.kem_preferences.tls13_kem_groups,
        ¬(s2n_kem_group_is_available p cg = true ∧ s2n_kem_group_is_available p sg = true
            ∧ cg.iana_id = sg.iana_id)) :
    s2n_get_predicted_negotiated_kem_group p client.kem_preferences server.kem_preferences = none
      ∧ predictSelected p client server
          = (s2n_get_predicted_negotiated_ecdhe_curve client server).map Selected.classical
      ∧ ((∀ cc ∈ client.ecc_preferences.ecc_curves, ∀ sc ∈ server.ecc_preferences.ecc_curves,
            cc.iana_id ≠ sc.iana_id) →
          s2n_get_predicted_negotiated_ecdhe_curve client server = none
            ∧ predictSelected p client server = none) := by
  have hkemnone : s2n_get_predicted_negotiated_kem_group p client.kem_preferences
      server.kem_preferences = none := by
    cases hcg : client.kem_preferences.tls13_kem_groups with
    | nil => simp [s2n_get_predicted_negotiated_kem_group, hcg]
    | cons cd ctail =>
      have hfast := kemFastPathScan_none p cd server.kem_preferences.tls13_kem_groups
        (fun sg hsg => hkem cd (by rw [hcg]; exact List.mem_cons_self ..) sg hsg)
      have htwo := kemTwoRttScan_none p ctail server.kem_preferences.tls13_kem_groups
        (fun s hs c hcmem =>
          hkem c (by rw [hcg]; exact List.mem_cons_of_mem _ hcmem) s hs)
      simp [s2n_get_predicted_negotiated_kem_group, hcg, hfast, htwo]
  refine ⟨hkemnone, by simp only [predictSelected, hkemnone], fun hcurve => ?_⟩
  have hcurvenone : s2n_get_predicted_negotiated_ecdhe_curve client server = none := by
    cases hcc : client.ecc_preferences.ecc_curves with
    | nil => simp [s2n_get_predicted_negotiated_ecdhe_curve, hcc]
    | cons cd ctail =>
      have hfast := curveFastPathScan_none cd server.ecc_preferences.ecc_curves
        (fun sc hsc => hcurve cd (by rw [hcc]; exact List.mem_cons_self ..) sc hsc)
      have htwo := curveTwoRttScan_none ctail server.ecc_preferences.ecc_curves
        (fun sc hs cc hcmem =>
          hcurve cc (by rw [hcc]; exact List.mem_cons_of_mem _ hcmem) sc hs)
      simp [s2n_get_predicted_negotiated_ecdhe_curve, hcc, hfast, htwo]
  exact ⟨hcurvenone, by simp [predictSelected, hkemnone, hcurvenone]⟩

/-- Witness for C6: disjoint KEM lists and disjoint curve lists produce no
selected group at either tier. -/
theorem no_mutual_group_fallthrough_witness :
    s2n_get_predicted_negotiated_kem_group probeAllOn fallbackWitnessClientPolicy.kem_preferences
        fallbackWitnessServerPolicy.kem_preferences = none
      ∧ s2n_get_predicted_negotiated_ecdhe_curve fallbackWitnessClientPolicy
          fallbackWitnessServerPolicy = none
      ∧ predictSelected probeAllOn fallbackWitnessClientPolicy fallbackWitnessServerPolicy
        = none := by
  have h := no_mutual_group_fallthrough probeAllOn fallbackWitnessClientPolicy
    fallbackWitnessServerPolicy (by decide)
  exact ⟨h.1, (h.2.2 (by decide)).1, (h.2.2 (by decide)).2⟩

/-- C10: whenever the KEM prediction function returns a group, that group is
available, it is one of the client's groups, and its iana id also appears in the
server's list; an unavailable group is never returned. -/
theorem predicted_kem_group_sound
    (p : CryptoProbe) (client_prefs server_prefs : s2n_kem_preferences) (g : s2n_kem_group)
    (h : s2n_get_predicted_negotiated_kem_group p client_prefs server_prefs = some g) :
    s2n_kem_group_is_available p g = true
      ∧ g ∈ client_prefs.tls13_kem_groups
      ∧ ∃ sg ∈ server_prefs.tls13_kem_groups, sg.iana_id = g.iana_id := by
  cases hcg : client_prefs.tls13_kem_groups with
  | nil =>
    rw [s2n_get_predicted_negotiated_kem_group, hcg] at h
    cases h
  | cons cd ctail =>
    simp only [s2n_get_predicted_negotiated_kem_group, hcg] at h
    cases hfast : kemFastPathScan p cd server_prefs.tls13_kem_groups with
    | some g0 =>
      simp only [hfast] at h
      cases h
      obtain ⟨heq, havail, sg, hsg, hid⟩ := kemFastPathScan_sound p cd g _ hfast
      exact ⟨havail, by rw [heq]; exact List.mem_cons_self .., sg, hsg, hid⟩
    | none =>
      simp only [hfast] at h
      obtain ⟨hmem, havail, sg, hsg, hid⟩ := kemTwoRttScan_sound p g ctail _ h
      exact ⟨havail, List.mem_cons_of_mem _ hmem, sg, hsg, hid⟩

/-- Witness for C10: the kyber draft-5 self-talk pair returns the client's first
group, which is available and appears in both lists. -/
theorem predicted_kem_group_sound_witness :
    s2n_kem_group_is_available probeAllOn s2n_x25519_kyber_512_r3 = true
      ∧ s2n_x25519_kyber_512_r3 ∈ kyber_test_prefs_draft5.tls13_kem_groups
      ∧ ∃ sg ∈ kyber_test_prefs_draft5.tls13_kem_groups,
          sg.iana_id = s2n_x25519_kyber_512_r3.iana_id :=
  predicted_kem_group_sound probeAllOn kyber_test_prefs_draft5 kyber_test_prefs_draft5
    s2n_x25519_kyber_512_r3 (by decide)

/-- C8: the availability predicate modelled from the spec satisfies every
assertion of the KEM-preferences test, for every capability combination of the
linked crypto provider. -/
theorem kem_group_availability_matches_tests :
    ∀ (evp x m : Bool),
      kemAvailabilityTestAssertions
        { supports_evp_kem := evp, supports_x25519 := x, supports_mlkem := m } = true := by
  decide

/-- C9: the serialized-connection fixed prefix is exactly 8 bytes of
version/magic plus the protocol version bytes plus the cipher suite id plus two
sequence numbers plus a 2-byte tag, and the TLS 1.2 form adds exactly the master
secret plus two 32-byte random values. -/
theorem serialized_conn_sizes :
    S2N_SERIALIZED_CONN_FIXED_SIZE
        = 8 + S2N_TLS_PROTOCOL_VERSION_LEN + S2N_TLS_CIPHER_SUITE_LEN
            + 2 * S2N_TLS_SEQUENCE_NUM_LEN + 2
      ∧ S2N_SERIALIZED_CONN_TLS12_SIZE
        = S2N_SERIALIZED_CONN_FIXED_SIZE + S2N_TLS_SECRET_LEN + 2 * 32
      ∧ S2N_TLS_RANDOM_DATA_LEN = 32 := by
  decide

/-- C4 counterexample: the embedded draft-compatibility vector with a
draft-revision-5 client (part_001 lines 650-657) expects the concatenated, not
length-prefixed, wire format even though the client's hybrid draft revision
equals 5, refuting the claim that the length prefix is used exactly when the
client's revision equals 5. -/
theorem len_prefixed_eq_draft5_refuted :
    draft_compat_vector_5_to_0.len_prefix_expected = false
      ∧ draft_compat_vector_5_to_0.client_kem_prefs.tls13_pq_hybrid_draft_revision = 5
      ∧ draft_compat_vector_5_to_0.len_prefix_expected
          ≠ (draft_compat_vector_5_to_0.client_kem_prefs.tls13_pq_hybrid_draft_revision == 5) := by
  decide

/-- C1: in every successful handshake the client's and server's extract_secret,
client_handshake_secret and server_handshake_secret are byte-for-byte equal, and
none of the six is the zeroed buffer. -/
theorem secrets_agree_and_nonzero
    (p : CryptoProbe) (n : HandshakeNonces) (client server : s2n_security_policy)
    (cc sc : ConnCtx)
    (h : runPqHandshake p n client server = some (cc, sc)) :
    cc.extract_secret = sc.extract_secret
      ∧ cc.client_handshake_secret = sc.client_handshake_secret
      ∧ cc.server_handshake_secret = sc.server_handshake_secret
      ∧ cc.extract_secret ≠ TlsSecret.zeroed
      ∧ cc.client_handshake_secret ≠ TlsSecret.zeroed
      ∧ cc.server_handshake_secret ≠ TlsSecret.zeroed
      ∧ sc.extract_secret ≠ TlsSecret.zeroed
      ∧ sc.client_handshake_secret ≠ TlsSecret.zeroed
      ∧ sc.server_handshake_secret ≠ TlsSecret.zeroed := by
  obtain ⟨sel, hrr, dhe, t, hsel, rfl, rfl⟩ := runPqHandshake_inv p n client server cc sc h
  refine ⟨rfl, rfl, rfl, ?_, ?_, ?_, ?_, ?_, ?_⟩ <;> simp [mkCtx]

/-- Witness for C1: the kyber draft-5 self-talk run with concrete key material. -/
theorem secrets_agree_and_nonzero_witness :
    witnessCtxs.1.extract_secret = witnessCtxs.2.extract_secret
      ∧ witnessCtxs.1.client_handshake_secret = witnessCtxs.2.client_handshake_secret
      ∧ witnessCtxs.1.server_handshake_secret = witnessCtxs.2.server_handshake_secret
      ∧ witnessCtxs.1.extract_secret ≠ TlsSecret.zeroed
      ∧ witnessCtxs.1.client_handshake_secret ≠ TlsSecret.zeroed
      ∧ witnessCtxs.1.server_handshake_secret ≠ TlsSecret.zeroed
      ∧ witnessCtxs.2.extract_secret ≠ TlsSecret.zeroed
      ∧ witnessCtxs.2.client_handshake_secret ≠ TlsSecret.zeroed
      ∧ witnessCtxs.2.server_handshake_secret ≠ TlsSecret.zeroed :=
  secrets_agree_and_nonzero probeAllOn witnessNonces selfTalkPolicy selfTalkPolicy
    witnessCtxs.1 witnessCtxs.2 rfl

/-- C4 amended: when a hybrid group is negotiated, the length-prefixed wire
format is used iff the client's hybrid_draft_revision is below 5 (draft 0), the
opposite polarity to the claim as stated; the server's observed flag always
equals the client's, independent of the server's own revision, as the two
embedded draft-compatibility vectors also record. -/
theorem len_prefixed_follows_client_draft
    (p : CryptoProbe) (n : HandshakeNonces) (client server : s2n_security_policy)
    (cc sc : ConnCtx)
    (h : runPqHandshake p n client server = some (cc, sc))
    (hhy : cc.kem_group.isSome = true) :
    cc.len_prefixed = clientHybridSharesLenPrefixed client.kem_preferences
      ∧ sc.len_prefixed = cc.len_prefixed
      ∧ clientHybridSharesLenPrefixed kyber_test_prefs_draft0 = true
      ∧ clientHybridSharesLenPrefixed draft_compat_vector_0_to_5.client_kem_prefs
          = draft_compat_vector_0_to_5.len_prefix_expected
      ∧ clientHybridSharesLenPrefixed draft_compat_vector_5_to_0.client_kem_prefs
          = draft_compat_vector_5_to_0.len_prefix_expected := by
  obtain ⟨sel, hrr, dhe, t, hsel, rfl, rfl⟩ := runPqHandshake_inv p n client server cc sc h
  cases sel with
  | classical cv => simp [mkCtx, selKemGroup] at hhy
  | hybrid g lenp =>
    obtain ⟨-, hlen⟩ := predictSelected_hybrid_inv p client server g lenp hsel
    exact ⟨by simp only [mkCtx, selLen]; exact hlen, rfl, by decide, by decide, by decide⟩

/-- Witness for C4: the kyber draft-5 self-talk run negotiates a hybrid group
with the concatenated format on both peers. -/
theorem len_prefixed_follows_client_draft_witness :
    witnessCtxs.1.len_prefixed = clientHybridSharesLenPrefixed selfTalkPolicy.kem_preferences
      ∧ witnessCtxs.2.len_prefixed = witnessCtxs.1.len_prefixed
      ∧ clientHybridSharesLenPrefixed kyber_test_prefs_draft0 = true
      ∧ clientHybridSharesLenPrefixed draft_compat_vector_0_to_5.client_kem_prefs
          = draft_compat_vector_0_to_5.len_prefix_expected
      ∧ clientHybridSharesLenPrefixed draft_compat_vector_5_to_0.client_kem_prefs
          = draft_compat_vector_5_to_0.len_prefix_expected :=
  len_prefixed_follows_client_draft probeAllOn witnessNonces selfTalkPolicy selfTalkPolicy
    witnessCtxs.1 witnessCtxs.2 rfl (by decide)

/-- C5: after any successful handshake exactly one of hybrid KEM group and
classical curve is negotiated on each peer, and the observability accessors
agree: the KEM group name is non-empty iff hybrid was negotiated, the curve name
is non-empty iff classical was negotiated, and never both. Group and curve names
of the client's policy are assumed non-empty, as in the registry. -/
theorem selected_exactly_one_and_accessors
    (p : CryptoProbe) (n : HandshakeNonces) (client server : s2n_security_policy)
    (cc sc : ConnCtx)
    (h : runPqHandshake p n client server = some (cc, sc))
    (hkNames : ∀ g ∈ client.kem_preferences.tls13_kem_groups, g.name ≠ "")
    (hcNames : ∀ c ∈ client.ecc_preferences.ecc_curves, c.name ≠ "") :
    (cc.kem_group.isSome = !cc.negotiated_curve.isSome)
      ∧ (sc.kem_group.isSome = !sc.negotiated_curve.isSome)
      ∧ (s2n_connection_get_kem_group_name cc ≠ "" ↔ cc.kem_group.isSome = true)
      ∧ (s2n_connection_get_curve cc ≠ "" ↔ cc.negotiated_curve.isSome = true)
      ∧ ¬(s2n_connection_get_kem_group_name cc ≠ "" ∧ s2n_connection_get_curve cc ≠ "")
      ∧ (s2n_connection_get_kem_group_name sc ≠ "" ↔ sc.kem_group.isSome = true)
      ∧ (s2n_connection_get_curve sc ≠ "" ↔ sc.negotiated_curve.isSome = true)
      ∧ ¬(s2n_connection_get_kem_group_name sc ≠ "" ∧ s2n_connection_get_curve sc ≠ "") := by
  obtain ⟨sel, hrr, dhe, t, hsel, rfl, rfl⟩ := runPqHandshake_inv p n client server cc sc h
  cases sel with
  | hybrid g lenp =>
    obtain ⟨hk, -⟩ := predictSelected_hybrid_inv p client server g lenp hsel
    obtain ⟨-, hmem, -⟩ := predictedKemGroupSoundAux p client.kem_preferences
      server.kem_preferences g hk
    have hname := hkNames g hmem
    refine ⟨?_, ?_, ?_, ?_, ?_, ?_, ?_, ?_⟩ <;>
      simp [mkCtx, selKemGroup, selCurve, s2n_connection_get_kem_group_name,
        s2n_connection_get_curve, hname]
  | classical cv =>
    have hcvmem := predictedCurveMemClient client server cv
      (predictSelected_classical_inv p client server cv hsel)
    have hname := hcNames cv hcvmem
    refine ⟨?_, ?_, ?_, ?_, ?_, ?_, ?_, ?_⟩ <;>
      simp [mkCtx, selKemGroup, selCurve, s2n_connection_get_kem_group_name,
        s2n_connection_get_curve, hname]

/-- Witness for C5: the kyber draft-5 self-talk run negotiates exactly a hybrid
group, and the accessors report it consistently on both peers. -/
theorem selected_exactly_one_and_accessors_witness :
    (witnessCtxs.1.kem_group.isSome = !witnessCtxs.1.negotiated_curve.isSome)
      ∧ (witnessCtxs.2.kem_group.isSome = !witnessCtxs.2.negotiated_curve.isSome)
      ∧ (s2n_connection_get_kem_group_name witnessCtxs.1 ≠ ""
          ↔ witnessCtxs.1.kem_group.isSome = true)
      ∧ (s2n_connection_get_curve witnessCtxs.1 ≠ ""
          ↔ witnessCtxs.1.negotiated_curve.isSome = true)
      ∧ ¬(s2n_connection_get_kem_group_name witnessCtxs.1 ≠ ""
          ∧ s2n_connection_get_curve witnessCtxs.1 ≠ "")
      ∧ (s2n_connection_get_kem_group_name witnessCtxs.2 ≠ ""
          ↔ witnessCtxs.2.kem_group.isSome = true)
      ∧ (s2n_connection_get_curve witnessCtxs.2 ≠ ""
          ↔ witnessCtxs.2.negotiated_curve.isSome = true)
      ∧ ¬(s2n_connection_get_kem_group_name witnessCtxs.2 ≠ ""
          ∧ s2n_connection_get_curve witnessCtxs.2 ≠ "") :=
  selected_exactly_one_and_accessors probeAllOn witnessNonces selfTalkPolicy selfTalkPolicy
    witnessCtxs.1 witnessCtxs.2 rfl (by decide) (by decide)

/-- C7: issuing a HelloRetryRequest sets the HELLO_RETRY_REQUEST flag, the flag
persists for the rest of the connection under every further event, the server
machine never issues a second HelloRetryRequest on one connection, and both
peers of a successful handshake agree on the flag. -/
theorem hrr_flag_set_persistent_and_single
    (p : CryptoProbe) (server : s2n_security_policy) :
    (∀ m e, (serverStep p server m e).2 = true → (serverStep p server m e).1.hrrFlag = true)
      ∧ (∀ m es, m.hrrFlag = true → ((runServer p server m es).1).hrrFlag = true)
      ∧ (∀ m es, (runServer p server m es).2 ≤ 1)
      ∧ (∀ n client cc sc, runPqHandshake p n client server = some (cc, sc) → cc.hrr = sc.hrr) := by
  refine ⟨fun m e he => (serverStep_emit_state p server m e he).2,
    fun m es hm => runServer_flag_mono p server es m hm,
    fun m es => runServer_count_le_one p server es m,
    fun n client cc sc h => ?_⟩
  obtain ⟨sel, hrr, dhe, t, hsel, rfl, rfl⟩ := runPqHandshake_inv p n client server _ _ h
  rfl

/-- Witness for C7: a machine that issued a HelloRetryRequest keeps the flag
through its next flight, issues at most one HelloRetryRequest, and the witness
run's peers agree on the flag. -/
theorem hrr_flag_set_persistent_and_single_witness :
    ((runServer probeAllOn selfTalkPolicy hrrWitnessMachine [HsEvent.sendFlight]).1).hrrFlag = true
      ∧ (runServer probeAllOn selfTalkPolicy hrrWitnessMachine [HsEvent.sendFlight]).2 ≤ 1
      ∧ witnessCtxs.1.hrr = witnessCtxs.2.hrr := by
  have h := hrr_flag_set_persistent_and_single probeAllOn selfTalkPolicy
  exact ⟨h.2.1 hrrWitnessMachine [HsEvent.sendFlight] rfl,
    h.2.2.1 hrrWitnessMachine [HsEvent.sendFlight],
    h.2.2.2 witnessNonces selfTalkPolicy witnessCtxs.1 witnessCtxs.2 rfl⟩

end S2N
